import Mathlib

/-!
Verification development for the IPAM (IP address management) system.

The definitions below are a shallow embedding of the core data-management
module (ipam_database.py).  The SQLite store is modelled as an explicit
record of three relations (subnets, ip_addresses, ip_history); every
database operation becomes a pure function from the store (plus a `now`
timestamp standing for CURRENT_TIMESTAMP / datetime.now()) to a result
paired with the updated store.  SQL NULL is modelled with Option;
timestamps are modelled as natural numbers.  Each operation commits its
transaction only on its success path, exactly as the source does: every
early-return failure path yields the store unchanged.
-/

set_option maxRecDepth 8192

namespace IPAM

/-- The status column of ip_addresses: CHECK (status IN ('free','used','reserved')). -/
inductive Status where
  | free
  | used
  | reserved
deriving DecidableEq, Repr

/-- One row of the subnets table. -/
structure SubnetRow where
  id : Nat
  subnet_cidr : String
  description : String
  gateway : String
  dns_server : String
  created_at : Nat
deriving DecidableEq, Repr

/-- One row of the ip_addresses table.  TEXT columns that may be NULL are
Option String; allocated_at is a nullable timestamp. -/
structure AddrRow where
  ip_address : String
  subnet_id : Nat
  status : Status
  allocated_to : Option String := none
  mac_address : Option String := none
  device_type : Option String := none
  allocated_at : Option Nat := none
  notes : Option String := none
  last_updated : Nat := 0
deriving DecidableEq, Repr

/-- One row of the ip_history audit table. -/
structure HistRow where
  ip_address : String
  action : String
  old_status : Status
  new_status : Status
  changed_by : String
  notes : String
  changed_at : Nat
deriving DecidableEq, Repr

/-- The whole persisted store (the three relations created by
init_database), plus the AUTOINCREMENT counter for subnets.id. -/
structure DB where
  subnets : List SubnetRow := []
  ip_addresses : List AddrRow := []
  ip_history : List HistRow := []
  next_subnet_id : Nat := 1
deriving DecidableEq, Repr

/-- The empty store right after init_database. -/
def DB.empty : DB := {}

/-- Configuration constants from ipam_config.py (class Config). -/
def Config.HIGH_USAGE_THRESHOLD : Nat := 80

/-- Configuration constant MEDIUM_USAGE_THRESHOLD from ipam_config.py. -/
def Config.MEDIUM_USAGE_THRESHOLD : Nat := 60

/-! ### Python string helpers

ip_to_sortable_key and the CSV/CIDR code work on Python strings.  We model
Python str.split and int() at the level of character lists, which is what
a Lean String carries. -/

/-- Python str.split(sep) for a one-character separator: "a..b".split(".")
is ["a","","b"] and "".split(".") is [""]. -/
def splitOnChar (sep : Char) : List Char → List (List Char)
  | [] => [[]]
  | c :: cs =>
    let rest := splitOnChar sep cs
    if c = sep then [] :: rest
    else
      match rest with
      | [] => [[c]]
      | h :: t => (c :: h) :: t

/-- ASCII digit test (Python int() additionally accepts non-ASCII decimal
digits, which never occur in this system's data). -/
def isAsciiDigit (c : Char) : Bool := '0' ≤ c && c ≤ '9'

/-- Value of a list of decimal digit characters. -/
def natOfDigits (cs : List Char) : Nat :=
  cs.foldl (fun a c => a * 10 + (c.toNat - '0'.toNat)) 0

/-- The digit part of Python int(): a nonempty run of decimal digits in
which single underscores may appear between digits ("1_000" is valid,
"_1", "1_" and "1__0" are not).  Splitting on the underscore gives an
exact characterisation: every group must be nonempty and all digits. -/
def pyIntDigits (cs : List Char) : Option Nat :=
  let groups := splitOnChar '_' cs
  if groups.all (fun g => !g.isEmpty && g.all isAsciiDigit) then
    some (natOfDigits (groups.flatten))
  else none

/-- Python int(str): optional surrounding whitespace, optional single sign,
then digits.  Returns none where Python raises ValueError. -/
def pyInt (cs : List Char) : Option Int :=
  let t := (cs.dropWhile Char.isWhitespace).reverse.dropWhile Char.isWhitespace
  let t := t.reverse
  match t with
  | '-' :: rest => (pyIntDigits rest).map (fun n => -(n : Int))
  | '+' :: rest => (pyIntDigits rest).map (fun n => (n : Int))
  | _ => (pyIntDigits t).map (fun n => (n : Int))

/-- ip_to_sortable_key: split the address text on "." and convert every
part with int(); any conversion failure is caught and the fallback key
(0, 0, 0, 0) is returned.  A Python tuple of ints is modelled as
List Int (note the tuple has one entry per part, four only for
well-formed dotted quads). -/
def ip_to_sortable_key (ip_address : String) : List Int :=
  match (splitOnChar '.' ip_address.data).mapM pyInt with
  | some parts => parts
  | none => [0, 0, 0, 0]

/-- Python tuple < on int tuples: lexicographic, an exhausted shorter
tuple is smaller. -/
def keyLt : List Int → List Int → Bool
  | [], [] => false
  | [], _ :: _ => true
  | _ :: _, [] => false
  | a :: as', b :: bs' => if a < b then true else if b < a then false else keyLt as' bs'

/-- Non-strict companion of keyLt (what "sorted ascending" means for
Python list.sort with this key). -/
def keyLe (a b : List Int) : Bool := !(keyLt b a)

/-- Stable insertion used to model Python list.sort(key=f): x is placed
after every element with a strictly smaller or equal key that precedes
it. -/
def insertByKey {α : Type} (k : α → List Int) (x : α) : List α → List α
  | [] => [x]
  | y :: ys => if keyLt (k x) (k y) then x :: y :: ys else y :: insertByKey k x ys

/-- Model of Python list.sort(key=f): a stable sort that orders rows
ascending by their key. -/
def sortByKey {α : Type} (k : α → List Int) : List α → List α
  | [] => []
  | x :: xs => insertByKey k x (sortByKey k xs)

/-! ### AllocationEngine: allocate_ip / release_ip / reserve_ip -/

/-- Outcome of an engine operation, one constructor per return site of
the Python function: ok is the success return, notFound the
"IP地址 ... 不存在" return, invalidTransition the
"当前状态为 ... 无法分配" return. -/
inductive OpOutcome where
  | ok
  | notFound
  | invalidTransition
deriving DecidableEq, Repr

/-- SQL UPDATE ... WHERE ip_address = ?: applies g to every matching row. -/
def updateIp (rows : List AddrRow) (ip : String) (g : AddrRow → AddrRow) : List AddrRow :=
  rows.map (fun r => if r.ip_address == ip then g r else r)

/-- The SET clause of the allocate UPDATE: status = used, the four
metadata fields, allocated_at = now, last_updated = now. -/
def allocRowUpd (allocated_to mac_address device_type notes : String)
    (now : Nat) (r : AddrRow) : AddrRow :=
  { r with
    status := .used
    allocated_to := some allocated_to
    mac_address := some mac_address
    device_type := some device_type
    allocated_at := some now
    notes := some notes
    last_updated := now }

/-- The history row inserted by a successful allocate: action allocate,
free to used, changed_by the allocation target. -/
def allocHist (ip_address allocated_to notes : String) (now : Nat) : HistRow :=
  { ip_address := ip_address, action := "allocate", old_status := .free
    new_status := .used, changed_by := allocated_to, notes := notes
    changed_at := now }

/-- allocate_ip: SELECT status WHERE ip_address = ?; missing row fails
with the not-found message, a non-free row fails with the
invalid-transition message (in both cases nothing was written and nothing
is committed); otherwise the row is set to used with the metadata fields,
allocated_at = now, and one allocate history row is inserted. -/
def allocate_ip (db : DB) (ip_address allocated_to : String)
    (mac_address device_type notes : String) (now : Nat) : OpOutcome × DB :=
  match db.ip_addresses.find? (fun r => r.ip_address == ip_address) with
  | none => (.notFound, db)
  | some r =>
    if r.status ≠ .free then (.invalidTransition, db)
    else
      (.ok,
       { db with
         ip_addresses :=
           updateIp db.ip_addresses ip_address
             (allocRowUpd allocated_to mac_address device_type notes now)
         ip_history := db.ip_history ++ [allocHist ip_address allocated_to notes now] })

/-- release_ip: SELECT status, allocated_to WHERE ip_address = ?; missing
row fails with the not-found message; otherwise (from any current status)
the row is cleared (allocated_to/mac/device/allocated_at set to NULL,
notes set to the empty string) and a release history row records the
actual prior status with actor "system". -/
def releaseRowUpd (now : Nat) (r : AddrRow) : AddrRow :=
  { r with
    status := .free
    allocated_to := none
    mac_address := none
    device_type := none
    allocated_at := none
    notes := some ""
    last_updated := now }

/-- The history row inserted by release: the actual prior status of the
row, actor "system". -/
def releaseHist (ip_address notes : String) (old_status : Status) (now : Nat) : HistRow :=
  { ip_address := ip_address, action := "release", old_status := old_status
    new_status := .free, changed_by := "system", notes := notes
    changed_at := now }

def release_ip (db : DB) (ip_address notes : String) (now : Nat) : OpOutcome × DB :=
  match db.ip_addresses.find? (fun r => r.ip_address == ip_address) with
  | none => (.notFound, db)
  | some r =>
    (.ok,
     { db with
       ip_addresses := updateIp db.ip_addresses ip_address (releaseRowUpd now)
       ip_history := db.ip_history ++ [releaseHist ip_address notes r.status now] })

/-- reserve_ip: runs UPDATE ... WHERE ip_address = ? (which silently
matches zero rows when the ip is unknown), then unconditionally inserts a
reserve history row hard-coding old_status 'free', and returns success.
There is no existence check and no current-status check. -/
def reserveRowUpd (notes : String) (now : Nat) (r : AddrRow) : AddrRow :=
  { r with status := .reserved, notes := some notes, last_updated := now }

/-- The history row inserted by reserve: old_status is hard-coded to
free in the SQL text, whatever the row's actual status was. -/
def reserveHist (ip_address notes : String) (now : Nat) : HistRow :=
  { ip_address := ip_address, action := "reserve", old_status := .free
    new_status := .reserved, changed_by := "system", notes := notes
    changed_at := now }

def reserve_ip (db : DB) (ip_address notes : String) (now : Nat) : OpOutcome × DB :=
  (.ok,
   { db with
     ip_addresses := updateIp db.ip_addresses ip_address (reserveRowUpd notes now)
     ip_history := db.ip_history ++ [reserveHist ip_address notes now] })

/-! ### SubnetRegistry: CIDR text, address rendering, create_subnet

ipaddress.ip_network(cidr) is modelled for the CIDR text forms the spec
defines (dotted-quad network plus optional numeric prefix length, with
the default strict=True host-bits check).  IPv6 text and the dotted
netmask/hostmask suffix forms accepted by the Python library are outside
the spec's scope (§1 non-goals) and are not modelled. -/

/-- Decimal rendering of one octet, str(n). -/
def octChars (n : Nat) : List Char := Nat.toDigits 10 n

/-- str(IPv4Address(n)): the four octets rendered in decimal and joined
with dots. -/
def ipChars (n : Nat) : List Char :=
  octChars (n / 16777216 % 256) ++ '.' ::
    (octChars (n / 65536 % 256) ++ '.' ::
      (octChars (n / 256 % 256) ++ '.' :: octChars (n % 256)))

/-- The TEXT stored in ip_addresses.ip_address for the numeric address n. -/
def ipString (n : Nat) : String := String.mk (ipChars n)

/-- ipaddress._parse_octet: nonempty, ASCII digits only, at most three
characters, no leading zero (except "0" itself), value at most 255. -/
def parseOctet (cs : List Char) : Option Nat :=
  if cs.isEmpty then none
  else if !cs.all isAsciiDigit then none
  else if cs.length > 3 then none
  else if cs.length > 1 && cs.headD ' ' = '0' then none
  else if natOfDigits cs > 255 then none
  else some (natOfDigits cs)

/-- The dotted-quad part: exactly four octets joined by dots. -/
def parseIPv4 (cs : List Char) : Option Nat :=
  match splitOnChar '.' cs with
  | [o1, o2, o3, o4] =>
    match parseOctet o1, parseOctet o2, parseOctet o3, parseOctet o4 with
    | some a, some b, some c, some d => some (((a * 256 + b) * 256 + c) * 256 + d)
    | _, _, _, _ => none
  | _ => none

/-- ipaddress._make_netmask for a digit string: int value at most 32. -/
def parsePrefixLen (cs : List Char) : Option Nat :=
  if !cs.isEmpty && cs.all isAsciiDigit then
    let p := natOfDigits cs
    if p ≤ 32 then some p else none
  else none

/-- ipaddress.ip_network(s) (strict): the text is split on "/"; one part
means prefix length 32; two parts require a valid prefix length and,
being strict, that no host bit of the address is set. -/
def parseCIDR (s : String) : Option (Nat × Nat) :=
  match splitOnChar '/' s.data with
  | [addr] =>
    match parseIPv4 addr with
    | some ip => some (ip, 32)
    | none => none
  | [addr, pl] =>
    match parseIPv4 addr, parsePrefixLen pl with
    | some ip, some p => if ip % 2 ^ (32 - p) = 0 then some (ip, p) else none
    | _, _ => none
  | _ => none

/-- network.hosts() for IPv4: prefixes up to /30 exclude the network and
broadcast addresses; /31 yields both addresses and /32 the single one. -/
def hostsList (net p : Nat) : List Nat :=
  if p ≤ 30 then (List.range (2 ^ (32 - p) - 2)).map (fun i => net + 1 + i)
  else if p = 31 then [net, net + 1]
  else [net]

/-- network.broadcast_address as an integer. -/
def broadcastOf (net p : Nat) : Nat := net + 2 ^ (32 - p) - 1

/-- Python object truthiness of an IPv4Address: the class defines neither
a __bool__ nor a __len__ method, so every instance is truthy.  The guard
"str(network.broadcast_address) if network.broadcast_address else ''" in
create_subnet therefore never takes its else branch. -/
def ipv4AddressIsTruthy (_addr : Nat) : Bool := true

/-- Outcome of create_subnet, one constructor per return site: ok carries
the reported total address count; invalidFormat is the ValueError branch
("无效的子网格式"), duplicate the "已存在" branch, integrityError the
sqlite3.IntegrityError branch (UNIQUE violation on ip_address). -/
inductive CreateResult where
  | ok (total : Nat)
  | invalidFormat
  | duplicate
  | integrityError
deriving DecidableEq, Repr

/-- Sequential INSERT of address rows inside one transaction: the first
UNIQUE-constraint violation on ip_address aborts the whole transaction
(none); otherwise the rows are appended in order. -/
def insertRows (existing : List AddrRow) : List AddrRow → Option (List AddrRow)
  | [] => some existing
  | r :: rest =>
    if existing.any (fun e => e.ip_address == r.ip_address) then none
    else insertRows (existing ++ [r]) rest

/-- The address rows create_subnet tries to INSERT, in source order:
every host as free, then the network address as reserved ("网络地址"),
then — behind the always-truthy broadcast guard — the broadcast address
as reserved ("广播地址"). -/
def genAddrRows (net p sid now : Nat) : List AddrRow :=
  let hostRows : List AddrRow := (hostsList net p).map (fun ip =>
    { ip_address := ipString ip, subnet_id := sid, status := .free
      last_updated := now })
  let broadcast_addr :=
    if ipv4AddressIsTruthy (broadcastOf net p) then ipString (broadcastOf net p) else ""
  let netRow : AddrRow :=
    { ip_address := ipString net, subnet_id := sid, status := .reserved
      notes := some "网络地址", last_updated := now }
  let bcastRows : List AddrRow :=
    if broadcast_addr ≠ "" then
      [{ ip_address := broadcast_addr, subnet_id := sid, status := .reserved
         notes := some "广播地址", last_updated := now }]
    else []
  hostRows ++ netRow :: bcastRows

/-- The total_ips counter of create_subnet: one per host, plus 2 when
the broadcast guard held (it always does), otherwise plus 1. -/
def genTotal (net p : Nat) : Nat :=
  let broadcast_addr :=
    if ipv4AddressIsTruthy (broadcastOf net p) then ipString (broadcastOf net p) else ""
  (hostsList net p).length + (if broadcast_addr ≠ "" then 2 else 1)

/-- create_subnet: validate the CIDR text, reject an exact-duplicate CIDR
string, then inside one transaction insert the subnet row and the
generated address rows.  The transaction commits only on the success
path, so an IntegrityError during address generation leaves the store
unchanged. -/
def create_subnet (db : DB) (subnet_cidr : String)
    (description gateway dns_server : String) (now : Nat) : CreateResult × DB :=
  match parseCIDR subnet_cidr with
  | none => (.invalidFormat, db)
  | some (net, p) =>
    if db.subnets.any (fun s => s.subnet_cidr == subnet_cidr) then (.duplicate, db)
    else
      let sid := db.next_subnet_id
      match insertRows db.ip_addresses (genAddrRows net p sid now) with
      | none => (.integrityError, db)
      | some rows =>
        (.ok (genTotal net p),
         { db with
           subnets := db.subnets ++
             [{ id := sid, subnet_cidr := subnet_cidr, description := description
                gateway := gateway, dns_server := dns_server, created_at := now }]
           ip_addresses := rows
           next_subnet_id := sid + 1 })

/-! ### StatisticsAggregator -/

/-- One element of the list returned by get_subnets_with_stats. -/
structure SubnetStats where
  id : Nat
  subnet_cidr : String
  description : String
  gateway : String
  dns_server : String
  created_at : Nat
  total_ips : Nat
  used_ips : Nat
  free_ips : Nat
  reserved_ips : Nat
  usage_rate : ℚ
  status : String
deriving DecidableEq, Repr

/-- COUNT of a subnet's address rows (the LEFT JOIN / GROUP BY count). -/
def countIn (db : DB) (sid : Nat) : Nat :=
  (db.ip_addresses.filter (fun r => r.subnet_id == sid)).length

/-- SUM(CASE WHEN status = ... THEN 1 ELSE 0 END) for a subnet. -/
def countWithStatus (db : DB) (sid : Nat) (st : Status) : Nat :=
  (db.ip_addresses.filter (fun r => r.subnet_id == sid && r.status == st)).length

/-- The usage-rate computation shared by the per-subnet and global
statistics: (used / total) * 100, guarded to 0 when total is 0.  Python
float arithmetic is modelled as exact rational arithmetic. -/
def usageRateOf (total used : Nat) : ℚ :=
  if total > 0 then (used : ℚ) / (total : ℚ) * 100 else 0

/-- The per-subnet status classification cascade of
get_subnets_with_stats, with its thresholds from Config. -/
def subnetStatusLabel (total used : Nat) (usage_rate : ℚ) : String :=
  if total = 0 then "空"
  else if usage_rate ≥ (Config.HIGH_USAGE_THRESHOLD : ℚ) then "高使用率"
  else if usage_rate ≥ (Config.MEDIUM_USAGE_THRESHOLD : ℚ) then "中高使用率"
  else if used = 0 then "空闲"
  else "正常"

/-- get_subnets_with_stats: every subnet (ORDER BY subnet_cidr) joined
with its aggregated address counts, usage rate and status label. -/
def get_subnets_with_stats (db : DB) : List SubnetStats :=
  let ordered :=
    List.insertionSort (fun a b : SubnetRow => a.subnet_cidr ≤ b.subnet_cidr) db.subnets
  ordered.map (fun s =>
    let total := countIn db s.id
    let used := countWithStatus db s.id .used
    let usage_rate := usageRateOf total used
    { id := s.id, subnet_cidr := s.subnet_cidr, description := s.description
      gateway := s.gateway, dns_server := s.dns_server, created_at := s.created_at
      total_ips := total, used_ips := used
      free_ips := countWithStatus db s.id .free
      reserved_ips := countWithStatus db s.id .reserved
      usage_rate := usage_rate
      status := subnetStatusLabel total used usage_rate })

/-- The dictionary returned by get_statistics. -/
structure GlobalStats where
  total : Nat
  used : Nat
  free : Nat
  reserved : Nat
  usage_rate : ℚ
deriving DecidableEq, Repr

/-- get_statistics: counts over the whole ip_addresses table and the
usage rate with the same zero-total guard. -/
def get_statistics (db : DB) : GlobalStats :=
  let total := db.ip_addresses.length
  let used := (db.ip_addresses.filter (fun r => r.status == Status.used)).length
  { total := total
    used := used
    free := (db.ip_addresses.filter (fun r => r.status == Status.free)).length
    reserved := (db.ip_addresses.filter (fun r => r.status == Status.reserved)).length
    usage_rate := if total > 0 then (used : ℚ) / (total : ℚ) * 100 else 0 }

/-! ### QueryEngine: listings and search -/

/-- Python str.strip(): surrounding whitespace removed. -/
def pyStrip (s : String) : String :=
  String.mk ((s.data.dropWhile Char.isWhitespace).reverse.dropWhile Char.isWhitespace).reverse

/-- Python str.lower() restricted to its ASCII action (no data in this
system carries cased non-ASCII letters). -/
def pyLower (s : String) : String := String.mk (s.data.map Char.toLower)

/-- SQLite LIKE with a pattern of the shape %kw%: case-insensitive for
ASCII letters (the default collation), false on a NULL column.  Wildcard
characters inside kw itself are not interpreted. -/
def likeMatch (field : Option String) (kw : String) : Bool :=
  match field with
  | none => false
  | some f => decide ((pyLower kw).data <:+: (pyLower f).data)

/-- One 7-column tuple of get_ips_by_subnet. -/
structure IpListRow where
  ip_address : String
  status : Status
  allocated_to : Option String
  mac_address : Option String
  device_type : Option String
  allocated_at : Option Nat
  notes : Option String
deriving DecidableEq, Repr

/-- Projection of an address row onto the 7 listed columns. -/
def toIpListRow (r : AddrRow) : IpListRow :=
  { ip_address := r.ip_address, status := r.status, allocated_to := r.allocated_to
    mac_address := r.mac_address, device_type := r.device_type
    allocated_at := r.allocated_at, notes := r.notes }

/-- The status_map of get_ips_by_subnet (Chinese labels and the raw
database values both map to a status). -/
def statusMapFull (f : String) : Option Status :=
  if f = "空闲" || f = "free" then some .free
  else if f = "已用" || f = "used" then some .used
  else if f = "保留" || f = "reserved" then some .reserved
  else none

/-- get_ips_by_subnet: the addresses of one subnet (INNER JOIN on the
owning subnet's cidr), optionally filtered by status (a falsy or "all"
filter, or one missing from status_map, filters nothing), sorted
ascending by ip_to_sortable_key. -/
def get_ips_by_subnet (db : DB) (subnet_cidr : String)
    (status_filter : Option String) : List IpListRow :=
  let rows := db.ip_addresses.filter (fun r =>
    db.subnets.any (fun s => s.id == r.subnet_id && s.subnet_cidr == subnet_cidr))
  let rows : List AddrRow :=
    match status_filter with
    | some f =>
      if f ≠ "" ∧ f ≠ "all" then
        match statusMapFull f with
        | some st => rows.filter (fun r => r.status == st)
        | none => rows
      else rows
    | none => rows
  sortByKey (fun r => ip_to_sortable_key r.ip_address) (rows.map toIpListRow)

/-- One 9-column tuple of search_ips (LEFT JOIN: the subnet columns are
NULL when the owning subnet row is missing). -/
structure SearchRow where
  ip_address : String
  status : Status
  allocated_to : Option String
  mac_address : Option String
  device_type : Option String
  allocated_at : Option Nat
  notes : Option String
  subnet_cidr : Option String
  subnet_desc : Option String
deriving DecidableEq, Repr

/-- search_ips: LEFT JOIN of every address with its subnet, then the
subnet filter (exact cidr; the sentinel "所有子网" and a falsy value
filter nothing), the status filter (Chinese labels only; the sentinel
"所有状态", a falsy value, or an unknown label filter nothing), and the
keyword filter (substring OR-combined over the seven listed columns);
the surviving rows are sorted ascending by ip_to_sortable_key. -/
def search_ips (db : DB)
    (subnet status keyword : Option String) : List SearchRow :=
  let joined : List SearchRow := db.ip_addresses.map (fun r =>
    match db.subnets.find? (fun s => s.id == r.subnet_id) with
    | some s =>
      { ip_address := r.ip_address, status := r.status
        allocated_to := r.allocated_to, mac_address := r.mac_address
        device_type := r.device_type, allocated_at := r.allocated_at
        notes := r.notes, subnet_cidr := some s.subnet_cidr
        subnet_desc := some s.description }
    | none =>
      { ip_address := r.ip_address, status := r.status
        allocated_to := r.allocated_to, mac_address := r.mac_address
        device_type := r.device_type, allocated_at := r.allocated_at
        notes := r.notes, subnet_cidr := none, subnet_desc := none })
  let rows : List SearchRow :=
    match subnet with
    | some sn =>
      if sn ≠ "" ∧ sn ≠ "所有子网" then
        joined.filter (fun r => r.subnet_cidr == some sn)
      else joined
    | none => joined
  let rows : List SearchRow :=
    match status with
    | some st =>
      if st ≠ "" ∧ st ≠ "所有状态" then
        if st = "空闲" then rows.filter (fun r => r.status == Status.free)
        else if st = "已用" then rows.filter (fun r => r.status == Status.used)
        else if st = "保留" then rows.filter (fun r => r.status == Status.reserved)
        else rows
      else rows
    | none => rows
  let rows : List SearchRow :=
    match keyword with
    | some kw =>
      if kw ≠ "" ∧ pyStrip kw ≠ "" then
        let pat := pyStrip kw
        rows.filter (fun r =>
          likeMatch (some r.ip_address) pat || likeMatch r.allocated_to pat ||
          likeMatch r.mac_address pat || likeMatch r.device_type pat ||
          likeMatch r.notes pat || likeMatch r.subnet_cidr pat ||
          likeMatch r.subnet_desc pat)
      else rows
    | none => rows
  sortByKey (fun r => ip_to_sortable_key r.ip_address) rows

/-- get_free_ips: the free addresses of one subnet, as plain ip strings,
sorted ascending by ip_to_sortable_key. -/
def get_free_ips (db : DB) (subnet_cidr : String) : List String :=
  let rows := db.ip_addresses.filter (fun r =>
    db.subnets.any (fun s => s.id == r.subnet_id && s.subnet_cidr == subnet_cidr) &&
      r.status == Status.free)
  sortByKey ip_to_sortable_key (rows.map (fun r => r.ip_address))

/-! ### CSV import of addresses -/

/-- import_ips_from_csv: every row with at least two cells names an ip
and a status (an unknown status text falls back to "free").  An existing
ip is updated directly with an SQL UPDATE — no engine operation is
invoked and no history row is written; the full metadata update applies
when the status is "used" and the row has at least four cells, otherwise
only the status column is set.  A missing ip contributes an error
message.  Returns ((0, updated count, error messages), updated store);
the subnet parameter of the source is unused there too. -/
def import_ips_from_csv (db : DB) (csv_data : List (List String))
    (_subnet_cidr : Option String) (now : Nat) : (Nat × Nat × List String) × DB :=
  let step := fun (acc : List AddrRow × Nat × List String) (row : List String) =>
    let rows := acc.1
    let cnt := acc.2.1
    let errs := acc.2.2
    if row.length ≥ 2 then
      let ip := pyStrip (row.getD 0 "")
      let st0 := pyLower (pyStrip (row.getD 1 ""))
      let st := if st0 = "free" ∨ st0 = "used" ∨ st0 = "reserved" then st0 else "free"
      let status : Status :=
        if st = "used" then .used else if st = "reserved" then .reserved else .free
      match rows.find? (fun r => r.ip_address == ip) with
      | some _ =>
        if st = "used" ∧ row.length ≥ 4 then
          (updateIp rows ip (fun r =>
            { r with
              status := status
              allocated_to := some (pyStrip (row.getD 2 ""))
              mac_address := some (pyStrip (row.getD 3 ""))
              device_type := some (pyStrip (row.getD 4 ""))
              notes := some (pyStrip (row.getD 5 ""))
              last_updated := now }), cnt + 1, errs)
        else
          (updateIp rows ip (fun r =>
            { r with status := status, last_updated := now }), cnt + 1, errs)
      | none => (rows, cnt, errs ++ ["IP地址 " ++ ip ++ " 不存在，跳过"])
    else acc
  let out := csv_data.foldl step (db.ip_addresses, 0, [])
  ((0, out.2.1, out.2.2), { db with ip_addresses := out.1 })

/-! ### Lemmas about row updates and lookups -/

lemma mem_updateIp_of_ne {rows : List AddrRow} {ip : String} (g : AddrRow → AddrRow)
    {q : AddrRow} (hq : q ∈ rows) (hne : q.ip_address ≠ ip) : q ∈ updateIp rows ip g := by
  have h2 := List.mem_map_of_mem (fun r => if r.ip_address == ip then g r else r) hq
  unfold updateIp
  simpa [hne] using h2

lemma find?_updateIp {rows : List AddrRow} {ip : String} {r : AddrRow} (g : AddrRow → AddrRow)
    (hg : ∀ x, (g x).ip_address = x.ip_address)
    (h : rows.find? (fun x => x.ip_address == ip) = some r) :
    (updateIp rows ip g).find? (fun x => x.ip_address == ip) = some (g r) := by
  induction rows with
  | nil => simp at h
  | cons a l ih =>
    unfold updateIp at ih ⊢
    by_cases hb : a.ip_address = ip
    · have hbb : (a.ip_address == ip) = true := by simp [hb]
      have hgb : ((if a.ip_address == ip then g a else a).ip_address == ip) = true := by
        simp [hb, hg]
      simp only [List.find?, hbb] at h
      injection h with h
      subst h
      simp only [List.map_cons, List.find?, hgb]
      simp [hb]
    · have hbb : (a.ip_address == ip) = false := by simp [hb]
      have hgb : ((if a.ip_address == ip then g a else a).ip_address == ip) = false := by
        simp [hbb]
      simp only [List.find?, hbb] at h
      simp only [List.map_cons, List.find?, hgb]
      exact ih h

lemma updateIp_of_find?_none {rows : List AddrRow} {ip : String} (g : AddrRow → AddrRow)
    (h : rows.find? (fun x => x.ip_address == ip) = none) : updateIp rows ip g = rows := by
  unfold updateIp
  have h' := List.find?_eq_none.mp h
  conv_rhs => rw [← List.map_id rows]
  apply List.map_congr_left
  intro a ha
  have hne := h' a ha
  simp only [Bool.not_eq_true] at hne
  simp [hne]

/-! ### Equation lemmas for the engine operations -/

lemma allocate_ip_not_found {db : DB} {ip tgt mac dev nts : String} {now : Nat}
    (h : db.ip_addresses.find? (fun x => x.ip_address == ip) = none) :
    allocate_ip db ip tgt mac dev nts now = (.notFound, db) := by
  unfold allocate_ip
  rw [h]

lemma allocate_ip_busy {db : DB} {ip tgt mac dev nts : String} {now : Nat} {r : AddrRow}
    (h : db.ip_addresses.find? (fun x => x.ip_address == ip) = some r)
    (hs : r.status ≠ .free) :
    allocate_ip db ip tgt mac dev nts now = (.invalidTransition, db) := by
  unfold allocate_ip
  rw [h]
  simp only [if_pos hs]

lemma allocate_ip_free {db : DB} {ip tgt mac dev nts : String} {now : Nat} {r : AddrRow}
    (h : db.ip_addresses.find? (fun x => x.ip_address == ip) = some r)
    (hs : r.status = .free) :
    allocate_ip db ip tgt mac dev nts now =
      (.ok,
       { db with
         ip_addresses := updateIp db.ip_addresses ip (allocRowUpd tgt mac dev nts now)
         ip_history := db.ip_history ++ [allocHist ip tgt nts now] }) := by
  unfold allocate_ip
  rw [h]
  simp only [if_neg (by simp [hs] : ¬r.status ≠ Status.free)]

lemma release_ip_not_found {db : DB} {ip nts : String} {now : Nat}
    (h : db.ip_addresses.find? (fun x => x.ip_address == ip) = none) :
    release_ip db ip nts now = (.notFound, db) := by
  unfold release_ip
  rw [h]

lemma release_ip_found {db : DB} {ip nts : String} {now : Nat} {r : AddrRow}
    (h : db.ip_addresses.find? (fun x => x.ip_address == ip) = some r) :
    release_ip db ip nts now =
      (.ok,
       { db with
         ip_addresses := updateIp db.ip_addresses ip (releaseRowUpd now)
         ip_history := db.ip_history ++ [releaseHist ip nts r.status now] }) := by
  unfold release_ip
  rw [h]

/-! ### Concrete sample stores used by the witnesses -/

/-- A generated-style host row: free, all nullable columns NULL. -/
def host1 : AddrRow := { ip_address := "10.0.0.1", subnet_id := 1, status := .free }

/-- An address currently allocated to bob. -/
def row2used : AddrRow :=
  { ip_address := "10.0.0.2", subnet_id := 1, status := .used
    allocated_to := some "bob", allocated_at := some 2, last_updated := 2 }

/-- A two-address store with one free and one used row. -/
def twoRowDB : DB := { ip_addresses := [host1, row2used] }

/-! ### Claims about the engine operations -/

/-- Claim C1: allocate on an unknown ip fails with the not-found result
and the store is unchanged; allocate on a non-free row fails with the
invalid-transition result and the store is unchanged (failed attempts
log no history); allocate on a free row succeeds, rewrites the row with
allocRowUpd (status used, the four metadata fields, allocated_at = now),
leaves every other row in place, and appends exactly the one allocate
history entry recording free to used. -/
theorem claim_C1 (db : DB) (ip tgt mac dev nts : String) (now : Nat) :
    (db.ip_addresses.find? (fun x => x.ip_address == ip) = none →
      allocate_ip db ip tgt mac dev nts now = (OpOutcome.notFound, db)) ∧
    (∀ r, db.ip_addresses.find? (fun x => x.ip_address == ip) = some r →
      r.status ≠ Status.free →
      allocate_ip db ip tgt mac dev nts now = (OpOutcome.invalidTransition, db)) ∧
    (∀ r, db.ip_addresses.find? (fun x => x.ip_address == ip) = some r →
      r.status = Status.free →
      (allocate_ip db ip tgt mac dev nts now).1 = OpOutcome.ok ∧
      (allocate_ip db ip tgt mac dev nts now).2.ip_addresses.find?
          (fun x => x.ip_address == ip) = some (allocRowUpd tgt mac dev nts now r) ∧
      (∀ q ∈ db.ip_addresses, q.ip_address ≠ ip →
        q ∈ (allocate_ip db ip tgt mac dev nts now).2.ip_addresses) ∧
      (allocate_ip db ip tgt mac dev nts now).2.ip_history =
        db.ip_history ++ [allocHist ip tgt nts now] ∧
      (allocate_ip db ip tgt mac dev nts now).2.subnets = db.subnets) := by
  refine ⟨fun h => allocate_ip_not_found h,
          fun r h hs => allocate_ip_busy h hs,
          fun r h hs => ?_⟩
  rw [allocate_ip_free h hs]
  exact ⟨rfl, find?_updateIp _ (fun x => rfl) h,
         fun q hq hne => mem_updateIp_of_ne _ hq hne, rfl, rfl⟩

/-- Claim C1 witness: the three cases of claim_C1 evaluated on the
two-row sample store. -/
theorem claim_C1_witness :
    allocate_ip twoRowDB "10.0.0.9" "a" "" "" "" 4 = (OpOutcome.notFound, twoRowDB) ∧
    allocate_ip twoRowDB "10.0.0.2" "a" "" "" "" 4 = (OpOutcome.invalidTransition, twoRowDB) ∧
    (allocate_ip twoRowDB "10.0.0.1" "srv01" "aa:bb" "server" "web" 4).1 = OpOutcome.ok ∧
    (allocate_ip twoRowDB "10.0.0.1" "srv01" "aa:bb" "server" "web" 4).2.ip_history =
      twoRowDB.ip_history ++ [allocHist "10.0.0.1" "srv01" "web" 4] := by
  refine ⟨(claim_C1 twoRowDB "10.0.0.9" "a" "" "" "" 4).1 (by decide),
          (claim_C1 twoRowDB "10.0.0.2" "a" "" "" "" 4).2.1 row2used (by decide) (by decide),
          ((claim_C1 twoRowDB "10.0.0.1" "srv01" "aa:bb" "server" "web" 4).2.2 host1
            (by decide) (by decide)).1,
          ((claim_C1 twoRowDB "10.0.0.1" "srv01" "aa:bb" "server" "web" 4).2.2 host1
            (by decide) (by decide)).2.2.2.1⟩

/-- Claim C2 counterexample: on the empty store the ip is unknown, yet
reserve_ip returns the success outcome (not the not-found one) and even
appends a reserve history row for the nonexistent address: the claimed
NotFoundError does not happen. -/
theorem claim_C2_counterexample :
    DB.empty.ip_addresses.find? (fun x => x.ip_address == "10.9.9.9") = none ∧
    (reserve_ip DB.empty "10.9.9.9" "x" 3).1 = OpOutcome.ok ∧
    (reserve_ip DB.empty "10.9.9.9" "x" 3).1 ≠ OpOutcome.notFound ∧
    (reserve_ip DB.empty "10.9.9.9" "x" 3).2.ip_history = [reserveHist "10.9.9.9" "x" 3] := by
  decide

/-- Claim C2 amended: reserve on an unknown ip does not fail: it returns
the success outcome, updates no address row (the UPDATE matches zero
rows), and still appends one reserve history entry. -/
theorem claim_C2 (db : DB) (ip nts : String) (now : Nat)
    (h : db.ip_addresses.find? (fun x => x.ip_address == ip) = none) :
    reserve_ip db ip nts now =
      (OpOutcome.ok, { db with ip_history := db.ip_history ++ [reserveHist ip nts now] }) := by
  unfold reserve_ip
  rw [updateIp_of_find?_none _ h]

/-- Claim C2 witness: claim_C2 evaluated on the empty store. -/
theorem claim_C2_witness :
    reserve_ip DB.empty "7.7.7.7" "w" 1 =
      (OpOutcome.ok, { DB.empty with ip_history := DB.empty.ip_history ++ [reserveHist "7.7.7.7" "w" 1] }) :=
  claim_C2 DB.empty "7.7.7.7" "w" 1 (by decide)

/-- Claim C6: for an existing ip with any current status, reserve
succeeds, rewrites the row to reserved (with the new notes), and appends
a history entry whose old_status is the hard-coded free — regardless of
the row's actual prior status, which is unconstrained here. -/
theorem claim_C6 (db : DB) (ip nts : String) (now : Nat) (r : AddrRow)
    (h : db.ip_addresses.find? (fun x => x.ip_address == ip) = some r) :
    (reserve_ip db ip nts now).1 = OpOutcome.ok ∧
    (reserve_ip db ip nts now).2.ip_addresses.find? (fun x => x.ip_address == ip) =
      some { r with status := Status.reserved, notes := some nts, last_updated := now } ∧
    (reserve_ip db ip nts now).2.ip_history = db.ip_history ++ [reserveHist ip nts now] ∧
    (reserveHist ip nts now).old_status = Status.free := by
  exact ⟨rfl, find?_updateIp _ (fun x => rfl) h, rfl, rfl⟩

/-- Claim C6 witness: reserving the row currently allocated (status
used) still logs old_status free. -/
theorem claim_C6_witness :
    row2used.status = Status.used ∧
    ((reserve_ip twoRowDB "10.0.0.2" "hold" 9).1 = OpOutcome.ok ∧
     (reserve_ip twoRowDB "10.0.0.2" "hold" 9).2.ip_addresses.find?
        (fun x => x.ip_address == "10.0.0.2") =
       some { row2used with status := Status.reserved, notes := some "hold", last_updated := 9 } ∧
     (reserve_ip twoRowDB "10.0.0.2" "hold" 9).2.ip_history =
       twoRowDB.ip_history ++ [reserveHist "10.0.0.2" "hold" 9] ∧
     (reserveHist "10.0.0.2" "hold" 9).old_status = Status.free) :=
  ⟨rfl, claim_C6 twoRowDB "10.0.0.2" "hold" 9 row2used (by decide)⟩

/-- Claim C5 counterexample: allocate then release on a generated host
row (whose notes column is NULL) ends with notes = some "" — the round
trip does not restore the pre-allocation state up to history and
last_updated only: the notes column differs too. -/
theorem claim_C5_counterexample :
    (release_ip (allocate_ip ({ ip_addresses := [host1] } : DB)
        "10.0.0.1" "srv01" "aa" "server" "n" 5).2 "10.0.0.1" "" 9).2.ip_addresses =
      [{ host1 with notes := some "", last_updated := 9 }] ∧
    ({ host1 with notes := some "", last_updated := 9 } : AddrRow) ≠
      { host1 with last_updated := 9 } ∧
    host1.notes = none := by
  decide

/-- Claim C5 amended: release of an unknown ip fails with not-found and
changes nothing; release of any existing row (whatever its status)
succeeds, clears allocated_to/mac/device/allocated_at, resets notes to
the empty string, leaves other rows in place, and appends a release
history entry recording the actual prior status with actor "system";
and allocate followed by release restores the pre-allocation free state
except for history, last_updated, and notes, which ends as the empty
string rather than its pre-allocation value. -/
theorem claim_C5 (db : DB) (ip nts : String) (now : Nat) :
    (db.ip_addresses.find? (fun x => x.ip_address == ip) = none →
      release_ip db ip nts now = (OpOutcome.notFound, db)) ∧
    (∀ r, db.ip_addresses.find? (fun x => x.ip_address == ip) = some r →
      (release_ip db ip nts now).1 = OpOutcome.ok ∧
      (release_ip db ip nts now).2.ip_addresses.find? (fun x => x.ip_address == ip) =
        some (releaseRowUpd now r) ∧
      (∀ q ∈ db.ip_addresses, q.ip_address ≠ ip →
        q ∈ (release_ip db ip nts now).2.ip_addresses) ∧
      (release_ip db ip nts now).2.ip_history =
        db.ip_history ++ [releaseHist ip nts r.status now]) ∧
    (∀ r tgt mac dev nts1 now1,
      db.ip_addresses.find? (fun x => x.ip_address == ip) = some r →
      r.status = Status.free →
      (release_ip (allocate_ip db ip tgt mac dev nts1 now1).2 ip nts now).2.ip_addresses.find?
          (fun x => x.ip_address == ip) =
        some { r with
               status := Status.free
               allocated_to := none
               mac_address := none
               device_type := none
               allocated_at := none
               notes := some ""
               last_updated := now } ∧
      (release_ip (allocate_ip db ip tgt mac dev nts1 now1).2 ip nts now).2.ip_history =
        db.ip_history ++ [allocHist ip tgt nts1 now1, releaseHist ip nts Status.used now]) := by
  refine ⟨fun h => release_ip_not_found h, fun r h => ?_, ?_⟩
  · rw [release_ip_found h]
    exact ⟨rfl, find?_updateIp _ (fun x => rfl) h,
           fun q hq hne => mem_updateIp_of_ne _ hq hne, rfl⟩
  · intro r tgt mac dev nts1 now1 h hs
    have hsnd : (allocate_ip db ip tgt mac dev nts1 now1).2 =
        { db with
          ip_addresses := updateIp db.ip_addresses ip (allocRowUpd tgt mac dev nts1 now1)
          ip_history := db.ip_history ++ [allocHist ip tgt nts1 now1] } := by
      rw [allocate_ip_free h hs]
    rw [hsnd]
    have hf1 : (updateIp db.ip_addresses ip (allocRowUpd tgt mac dev nts1 now1)).find?
        (fun x => x.ip_address == ip) = some (allocRowUpd tgt mac dev nts1 now1 r) :=
      find?_updateIp _ (fun x => rfl) h
    rw [release_ip_found hf1]
    have hf2 : ((updateIp (updateIp db.ip_addresses ip (allocRowUpd tgt mac dev nts1 now1))
        ip (releaseRowUpd now)).find? (fun x => x.ip_address == ip)) =
        some (releaseRowUpd now (allocRowUpd tgt mac dev nts1 now1 r)) :=
      find?_updateIp _ (fun x => rfl) hf1
    refine ⟨hf2, ?_⟩
    rw [List.append_assoc]
    rfl

/-- Claim C5 witness: the three cases of claim_C5 on concrete stores,
including the allocate/release round trip on the generated-style row. -/
theorem claim_C5_witness :
    release_ip twoRowDB "10.0.0.9" "n" 9 = (OpOutcome.notFound, twoRowDB) ∧
    ((release_ip twoRowDB "10.0.0.2" "n" 9).1 = OpOutcome.ok ∧
     (release_ip twoRowDB "10.0.0.2" "n" 9).2.ip_history =
       twoRowDB.ip_history ++ [releaseHist "10.0.0.2" "n" Status.used 9]) ∧
    (release_ip (allocate_ip twoRowDB "10.0.0.1" "srv01" "aa" "server" "x" 5).2
        "10.0.0.1" "" 9).2.ip_addresses.find? (fun x => x.ip_address == "10.0.0.1") =
      some { host1 with
             status := Status.free
             allocated_to := none
             mac_address := none
             device_type := none
             allocated_at := none
             notes := some ""
             last_updated := 9 } := by
  have h2 := (claim_C5 twoRowDB "10.0.0.2" "n" 9).2.1 row2used (by decide)
  refine ⟨(claim_C5 twoRowDB "10.0.0.9" "n" 9).1 (by decide), ⟨h2.1, h2.2.2.2⟩, ?_⟩
  exact ((claim_C5 twoRowDB "10.0.0.1" "" 9).2.2 host1 "srv01" "aa" "server" "x" 5
          (by decide) (by decide)).1

/-- Claim C3 counterexample: CSV address import flips the generated host
row from free to used (filling the metadata columns directly) while the
history ledger stays empty — a status change of an existing address with
no accompanying history entry, and not performed by an engine
operation. -/
theorem claim_C3_counterexample :
    (import_ips_from_csv ({ ip_addresses := [host1] } : DB)
        [["10.0.0.1", "used", "srv", "aa:bb"]] none 7).2.ip_addresses =
      [{ host1 with
         status := Status.used
         allocated_to := some "srv"
         mac_address := some "aa:bb"
         device_type := some ""
         notes := some ""
         last_updated := 7 }] ∧
    host1.status = Status.free ∧
    (import_ips_from_csv ({ ip_addresses := [host1] } : DB)
        [["10.0.0.1", "used", "srv", "aa:bb"]] none 7).2.ip_history = [] := by
  decide

/-- Claim C3 amended: the engine operations allocate/release/reserve
each append exactly one history entry for the transition they perform,
but CSV-driven address import also changes the status of existing
address rows, directly by UPDATE, and never appends any history entry —
so not every status change of an existing address is accompanied by a
history record. -/
theorem claim_C3 :
    (∀ db csv sc now, (import_ips_from_csv db csv sc now).2.ip_history = db.ip_history) ∧
    (∀ db ip tgt mac dev nts now r,
      db.ip_addresses.find? (fun x => x.ip_address == ip) = some r →
      r.status = Status.free →
      (allocate_ip db ip tgt mac dev nts now).2.ip_history =
        db.ip_history ++ [allocHist ip tgt nts now]) ∧
    (∀ db ip nts now r,
      db.ip_addresses.find? (fun x => x.ip_address == ip) = some r →
      (release_ip db ip nts now).2.ip_history =
        db.ip_history ++ [releaseHist ip nts r.status now]) ∧
    (∀ db ip nts now, (reserve_ip db ip nts now).2.ip_history =
      db.ip_history ++ [reserveHist ip nts now]) := by
  refine ⟨fun db csv sc now => rfl, ?_, ?_, fun db ip nts now => rfl⟩
  · intro db ip tgt mac dev nts now r h hs
    rw [allocate_ip_free h hs]
  · intro db ip nts now r h
    rw [release_ip_found h]

/-- Claim C3 witness: the four conjuncts of claim_C3 on the two-row
sample store. -/
theorem claim_C3_witness :
    (import_ips_from_csv twoRowDB [["10.0.0.1", "reserved"]] none 3).2.ip_history =
      twoRowDB.ip_history ∧
    (allocate_ip twoRowDB "10.0.0.1" "a" "b" "c" "d" 4).2.ip_history =
      twoRowDB.ip_history ++ [allocHist "10.0.0.1" "a" "d" 4] ∧
    (release_ip twoRowDB "10.0.0.2" "n" 5).2.ip_history =
      twoRowDB.ip_history ++ [releaseHist "10.0.0.2" "n" Status.used 5] ∧
    (reserve_ip twoRowDB "10.0.0.1" "n" 6).2.ip_history =
      twoRowDB.ip_history ++ [reserveHist "10.0.0.1" "n" 6] :=
  ⟨claim_C3.1 twoRowDB [["10.0.0.1", "reserved"]] none 3,
   claim_C3.2.1 twoRowDB "10.0.0.1" "a" "b" "c" "d" 4 host1 (by decide) (by decide),
   claim_C3.2.2.1 twoRowDB "10.0.0.2" "n" 5 row2used (by decide),
   claim_C3.2.2.2 twoRowDB "10.0.0.1" "n" 6⟩

/-! ### Claim C7: usage rate and status classification -/

/-- Claim C7: every entry of get_subnets_with_stats satisfies
usage_rate = used/total*100 with a zero-total guard, and its status label
is the Empty/High/MediumHigh/Idle/Normal cascade ("空" / "高使用率" /
"中高使用率" / "空闲" / "正常") with thresholds 80 and 60; the global
statistics use the same rate formula and guard; and the thresholds are
the Config constants. -/
theorem claim_C7 :
    (∀ db e, e ∈ get_subnets_with_stats db →
      e.usage_rate =
        (if e.total_ips > 0 then (e.used_ips : ℚ) / (e.total_ips : ℚ) * 100 else 0) ∧
      e.status =
        (if e.total_ips = 0 then "空"
         else if e.usage_rate ≥ 80 then "高使用率"
         else if e.usage_rate ≥ 60 then "中高使用率"
         else if e.used_ips = 0 then "空闲"
         else "正常")) ∧
    (∀ db, (get_statistics db).usage_rate =
      (if (get_statistics db).total > 0 then
        ((get_statistics db).used : ℚ) / ((get_statistics db).total : ℚ) * 100 else 0)) ∧
    Config.HIGH_USAGE_THRESHOLD = 80 ∧ Config.MEDIUM_USAGE_THRESHOLD = 60 := by
  refine ⟨?_, fun db => rfl, rfl, rfl⟩
  intro db e he
  simp only [get_subnets_with_stats, List.mem_map] at he
  obtain ⟨s, hs, rfl⟩ := he
  refine ⟨rfl, ?_⟩
  show subnetStatusLabel _ _ _ = _
  unfold subnetStatusLabel
  norm_num [Config.HIGH_USAGE_THRESHOLD, Config.MEDIUM_USAGE_THRESHOLD]

/-- The subnet row of the /30 sample store. -/
def subnet30 : SubnetRow :=
  { id := 1, subnet_cidr := "10.0.0.0/30", description := "", gateway := ""
    dns_server := "", created_at := 0 }

/-- A store holding one /30 subnet with its four generated rows. -/
def statsDb : DB :=
  { subnets := [subnet30]
    ip_addresses :=
      [{ ip_address := "10.0.0.1", subnet_id := 1, status := .free },
       { ip_address := "10.0.0.2", subnet_id := 1, status := .free },
       { ip_address := "10.0.0.0", subnet_id := 1, status := .reserved, notes := some "网络地址" },
       { ip_address := "10.0.0.3", subnet_id := 1, status := .reserved, notes := some "广播地址" }] }

/-- The stats entry computed for statsDb. -/
def stats30 : SubnetStats :=
  { id := 1, subnet_cidr := "10.0.0.0/30", description := "", gateway := ""
    dns_server := "", created_at := 0, total_ips := 4, used_ips := 0
    free_ips := 2, reserved_ips := 2, usage_rate := usageRateOf 4 0
    status := subnetStatusLabel 4 0 (usageRateOf 4 0) }

lemma get_subnets_with_stats_statsDb : get_subnets_with_stats statsDb = [stats30] := rfl

/-- Claim C7 witness: claim_C7 applied to the concrete /30 store (and
the global statistics of the empty store, exercising the zero-total
guard). -/
theorem claim_C7_witness :
    (stats30.usage_rate =
      (if stats30.total_ips > 0 then
        (stats30.used_ips : ℚ) / (stats30.total_ips : ℚ) * 100 else 0) ∧
     stats30.status =
      (if stats30.total_ips = 0 then "空"
       else if stats30.usage_rate ≥ 80 then "高使用率"
       else if stats30.usage_rate ≥ 60 then "中高使用率"
       else if stats30.used_ips = 0 then "空闲"
       else "正常")) ∧
    (get_statistics DB.empty).usage_rate =
      (if (get_statistics DB.empty).total > 0 then
        ((get_statistics DB.empty).used : ℚ) / ((get_statistics DB.empty).total : ℚ) * 100
       else 0) :=
  ⟨claim_C7.1 statsDb stats30 (by simp [get_subnets_with_stats_statsDb]),
   claim_C7.2.1 DB.empty⟩

/-! ### Claim C8: ordering of listings and the sort key -/

lemma keyLt_asymm : ∀ a b, keyLt a b = true → keyLt b a = false := by
  intro a
  induction a with
  | nil =>
    intro b h
    cases b with
    | nil => simp [keyLt] at h
    | cons y ys => simp [keyLt]
  | cons x xs ih =>
    intro b h
    cases b with
    | nil => simp [keyLt] at h
    | cons y ys =>
      simp only [keyLt] at h ⊢
      by_cases h1 : x < y
      · have h2 : ¬ y < x := by omega
        simp [h1, h2]
      · by_cases h2 : y < x
        · simp [h1, h2] at h
        · simp only [if_neg h1, if_neg h2] at h ⊢
          exact ih ys h

lemma keyLt_trans : ∀ a b c, keyLt a b = true → keyLt b c = true → keyLt a c = true := by
  intro a
  induction a with
  | nil =>
    intro b c hab hbc
    cases b with
    | nil => simp [keyLt] at hab
    | cons y ys =>
      cases c with
      | nil => simp [keyLt] at hbc
      | cons z zs => simp [keyLt]
  | cons x xs ih =>
    intro b c hab hbc
    cases b with
    | nil => simp [keyLt] at hab
    | cons y ys =>
      cases c with
      | nil => simp [keyLt] at hbc
      | cons z zs =>
        simp only [keyLt] at hab hbc ⊢
        by_cases hxy : x < y
        · by_cases hyz : y < z
          · simp [show x < z by omega]
          · by_cases hzy : z < y
            · simp [hyz, hzy] at hbc
            · have : y = z := by omega
              subst this
              simp [hxy]
        · by_cases hyx : y < x
          · simp [hxy, hyx] at hab
          · have hxy2 : x = y := by omega
            subst hxy2
            by_cases hxz : x < z
            · simp [hxz]
            · by_cases hzx : z < x
              · simp [hxz, hzx] at hbc
              · have : x = z := by omega
                subst this
                simp only [if_neg (lt_irrefl x)] at hab hbc ⊢
                exact ih ys zs hab hbc

lemma keyLt_conn : ∀ a b, keyLt a b = false → keyLt b a = false → a = b := by
  intro a
  induction a with
  | nil =>
    intro b hab hba
    cases b with
    | nil => rfl
    | cons y ys => simp [keyLt] at hab
  | cons x xs ih =>
    intro b hab hba
    cases b with
    | nil => simp [keyLt] at hba
    | cons y ys =>
      simp only [keyLt] at hab hba
      by_cases hxy : x < y
      · simp [hxy] at hab
      · by_cases hyx : y < x
        · simp [hxy, hyx] at hba
        · have hxy2 : x = y := by omega
          subst hxy2
          simp only [if_neg (lt_irrefl x)] at hab hba
          rw [ih ys hab hba]

lemma mem_insertByKey {α : Type} (k : α → List Int) (x : α) :
    ∀ (l : List α) (z : α), z ∈ insertByKey k x l → z = x ∨ z ∈ l := by
  intro l
  induction l with
  | nil => intro z hz; simpa [insertByKey] using hz
  | cons y ys ih =>
    intro z hz
    unfold insertByKey at hz
    by_cases hc : keyLt (k x) (k y) = true
    · rw [if_pos hc] at hz
      rcases List.mem_cons.mp hz with rfl | hz
      · exact Or.inl rfl
      · exact Or.inr hz
    · rw [if_neg hc] at hz
      rcases List.mem_cons.mp hz with rfl | hz
      · exact Or.inr (List.mem_cons_self _ _)
      · rcases ih z hz with h | h
        · exact Or.inl h
        · exact Or.inr (List.mem_cons_of_mem _ h)

lemma insertByKey_pairwise {α : Type} (k : α → List Int) (x : α) :
    ∀ (l : List α), l.Pairwise (fun a b => keyLe (k a) (k b) = true) →
      (insertByKey k x l).Pairwise (fun a b => keyLe (k a) (k b) = true) := by
  intro l
  induction l with
  | nil => intro _; simp [insertByKey]
  | cons y ys ih =>
    intro hl
    rcases List.pairwise_cons.mp hl with ⟨hy, hys⟩
    unfold insertByKey
    by_cases hc : keyLt (k x) (k y) = true
    · rw [if_pos hc]
      refine List.pairwise_cons.mpr ⟨?_, hl⟩
      intro z hz
      rcases List.mem_cons.mp hz with rfl | hz
      · unfold keyLe
        rw [keyLt_asymm _ _ hc]
        rfl
      · unfold keyLe
        have hzy := hy z hz
        unfold keyLe at hzy
        have hzy2 : keyLt (k z) (k y) = false := by
          cases hkk : keyLt (k z) (k y) with
          | true => rw [hkk] at hzy; simp at hzy
          | false => rfl
        have : keyLt (k z) (k x) = false := by
          cases hzx : keyLt (k z) (k x) with
          | true =>
            have := keyLt_trans _ _ _ hzx hc
            rw [this] at hzy2
            exact hzy2
          | false => rfl
        rw [this]
        rfl
    · rw [if_neg hc]
      refine List.pairwise_cons.mpr ⟨?_, ih hys⟩
      intro z hz
      rcases mem_insertByKey k x _ z hz with rfl | hz
      · unfold keyLe
        have : keyLt (k z) (k y) = false := by
          cases hk : keyLt (k z) (k y) with
          | true => exact absurd hk hc
          | false => rfl
        rw [this]
        rfl
      · exact hy z hz

lemma sortByKey_pairwise {α : Type} (k : α → List Int) (l : List α) :
    (sortByKey k l).Pairwise (fun a b => keyLe (k a) (k b) = true) := by
  induction l with
  | nil => simp [sortByKey]
  | cons x xs ih =>
    unfold sortByKey
    exact insertByKey_pairwise k x _ ih

/-- Claim C8 counterexample: the string "1.2.3" is not a well-formed
dotted quad (parseIPv4 rejects it), yet its sort key is the numeric
3-tuple (1, 2, 3), not the claimed lowest-key fallback (0, 0, 0, 0) —
the fallback fires only when some part fails integer conversion. -/
theorem claim_C8_counterexample :
    ip_to_sortable_key "1.2.3" = [1, 2, 3] ∧
    ip_to_sortable_key "1.2.3" ≠ [0, 0, 0, 0] ∧
    parseIPv4 "1.2.3".data = none := by
  decide

/-- Claim C8 amended: every address listing (by subnet, free list) and
search returns its rows pairwise ascending in the Python-tuple order of
ip_to_sortable_key, regardless of filters; the key of a string whose
dot-separated parts all convert with int() is exactly that tuple of
integers (whatever its length), and the (0,0,0,0) fallback fires exactly
when some part fails integer conversion — not for every malformed
address. -/
theorem claim_C8 :
    (∀ db subnet status keyword,
      (search_ips db subnet status keyword).Pairwise
        (fun a b => keyLe (ip_to_sortable_key a.ip_address)
          (ip_to_sortable_key b.ip_address) = true)) ∧
    (∀ db sc sf,
      (get_ips_by_subnet db sc sf).Pairwise
        (fun a b => keyLe (ip_to_sortable_key a.ip_address)
          (ip_to_sortable_key b.ip_address) = true)) ∧
    (∀ db sc,
      (get_free_ips db sc).Pairwise
        (fun a b => keyLe (ip_to_sortable_key a) (ip_to_sortable_key b) = true)) ∧
    (∀ s ks, (splitOnChar '.' s.data).mapM pyInt = some ks →
      ip_to_sortable_key s = ks) ∧
    (∀ s, (splitOnChar '.' s.data).mapM pyInt = none →
      ip_to_sortable_key s = [0, 0, 0, 0]) := by
  refine ⟨?_, ?_, ?_, ?_, ?_⟩
  · intro db subnet status keyword
    unfold search_ips
    exact sortByKey_pairwise _ _
  · intro db sc sf
    unfold get_ips_by_subnet
    exact sortByKey_pairwise _ _
  · intro db sc
    unfold get_free_ips
    exact sortByKey_pairwise _ _
  · intro s ks h
    unfold ip_to_sortable_key
    rw [h]
  · intro s h
    unfold ip_to_sortable_key
    rw [h]

/-- Claim C8 witness: the key equations of claim_C8 evaluated on a
well-formed address and on a string with a non-numeric part. -/
theorem claim_C8_witness :
    ip_to_sortable_key "192.168.1.10" = [192, 168, 1, 10] ∧
    ip_to_sortable_key "10.0.0.x" = [0, 0, 0, 0] :=
  ⟨claim_C8.2.2.2.1 "192.168.1.10" [192, 168, 1, 10] (by decide),
   claim_C8.2.2.2.2 "10.0.0.x" (by decide)⟩

/-! ### Subnet creation: rendering injectivity and transaction lemmas -/

lemma ipChars_ne_nil (n : Nat) : ipChars n ≠ [] := by
  unfold ipChars
  simp

lemma ipString_ne_empty (n : Nat) : ipString n ≠ "" := by
  intro h
  apply ipChars_ne_nil n
  exact congrArg String.data h

/-- The broadcast guard can never fail, so the generated rows are always
the hosts, the network row and the broadcast row. -/
lemma genAddrRows_eq (net p sid now : Nat) :
    genAddrRows net p sid now =
      (hostsList net p).map (fun ip =>
        { ip_address := ipString ip, subnet_id := sid, status := .free
          last_updated := now }) ++
      [{ ip_address := ipString net, subnet_id := sid, status := .reserved
         notes := some "网络地址", last_updated := now },
       { ip_address := ipString (broadcastOf net p), subnet_id := sid
         status := .reserved, notes := some "广播地址", last_updated := now }] := by
  unfold genAddrRows ipv4AddressIsTruthy
  simp [ipString_ne_empty]

/-- The reported total is always hosts + 2: the hosts + 1 branch is dead
code. -/
lemma genTotal_eq (net p : Nat) : genTotal net p = (hostsList net p).length + 2 := by
  unfold genTotal ipv4AddressIsTruthy
  simp [ipString_ne_empty]

lemma hostsList_length {net p : Nat} (hp : p ≤ 30) :
    (hostsList net p).length = 2 ^ (32 - p) - 2 := by
  unfold hostsList
  rw [if_pos hp]
  simp

lemma two_pow_ge {p : Nat} (hp : p ≤ 30) : 4 ≤ 2 ^ (32 - p) := by
  calc (4 : Nat) = 2 ^ 2 := by norm_num
    _ ≤ 2 ^ (32 - p) := Nat.pow_le_pow_right (by norm_num) (by omega)

lemma natOfDigits_octChars : ∀ i : Fin 256, natOfDigits (octChars i.val) = i.val := by
  decide

lemma dot_not_mem_octChars_fin : ∀ i : Fin 256, '.' ∉ octChars i.val := by
  decide

lemma octChars_inj {a b : Nat} (ha : a < 256) (hb : b < 256)
    (h : octChars a = octChars b) : a = b := by
  have h1 := natOfDigits_octChars ⟨a, ha⟩
  have h2 := natOfDigits_octChars ⟨b, hb⟩
  simp only [Fin.val_mk] at h1 h2
  rw [← h1, ← h2, h]

lemma dot_not_mem_octChars {a : Nat} (ha : a < 256) : '.' ∉ octChars a := by
  have := dot_not_mem_octChars_fin ⟨a, ha⟩
  simpa using this

lemma append_dot_cancel : ∀ {xs ys zs ws : List Char}, '.' ∉ xs → '.' ∉ ys →
    xs ++ '.' :: zs = ys ++ '.' :: ws → xs = ys ∧ zs = ws := by
  intro xs
  induction xs with
  | nil =>
    intro ys zs ws hx hy h
    cases ys with
    | nil =>
      simp only [List.nil_append] at h
      exact ⟨rfl, by injection h⟩
    | cons y ys' =>
      simp only [List.nil_append, List.cons_append] at h
      injection h with h1 h2
      exact absurd (h1 ▸ List.mem_cons_self y ys') hy
  | cons x xs' ih =>
    intro ys zs ws hx hy h
    cases ys with
    | nil =>
      simp only [List.cons_append, List.nil_append] at h
      injection h with h1 h2
      exact absurd (h1 ▸ List.mem_cons_self x xs') hx
    | cons y ys' =>
      simp only [List.cons_append] at h
      injection h with h1 h2
      have hx' : '.' ∉ xs' := fun hm => hx (List.mem_cons_of_mem _ hm)
      have hy' : '.' ∉ ys' := fun hm => hy (List.mem_cons_of_mem _ hm)
      obtain ⟨e1, e2⟩ := ih hx' hy' h2
      exact ⟨by rw [h1, e1], e2⟩

lemma ipChars_inj {m n : Nat} (hm : m < 4294967296) (hn : n < 4294967296)
    (h : ipChars m = ipChars n) : m = n := by
  unfold ipChars at h
  have d1 : m / 16777216 % 256 < 256 := Nat.mod_lt _ (by norm_num)
  have d2 : m / 65536 % 256 < 256 := Nat.mod_lt _ (by norm_num)
  have d3 : m / 256 % 256 < 256 := Nat.mod_lt _ (by norm_num)
  have d4 : m % 256 < 256 := Nat.mod_lt _ (by norm_num)
  have e1 : n / 16777216 % 256 < 256 := Nat.mod_lt _ (by norm_num)
  have e2 : n / 65536 % 256 < 256 := Nat.mod_lt _ (by norm_num)
  have e3 : n / 256 % 256 < 256 := Nat.mod_lt _ (by norm_num)
  have e4 : n % 256 < 256 := Nat.mod_lt _ (by norm_num)
  obtain ⟨h1, h⟩ :=
    append_dot_cancel (dot_not_mem_octChars d1) (dot_not_mem_octChars e1) h
  obtain ⟨h2, h⟩ :=
    append_dot_cancel (dot_not_mem_octChars d2) (dot_not_mem_octChars e2) h
  obtain ⟨h3, h4⟩ :=
    append_dot_cancel (dot_not_mem_octChars d3) (dot_not_mem_octChars e3) h
  have g1 := octChars_inj d1 e1 h1
  have g2 := octChars_inj d2 e2 h2
  have g3 := octChars_inj d3 e3 h3
  have g4 := octChars_inj d4 e4 h4
  omega

lemma ipString_inj {m n : Nat} (hm : m < 4294967296) (hn : n < 4294967296)
    (h : ipString m = ipString n) : m = n :=
  ipChars_inj hm hn (congrArg String.data h)

lemma parseOctet_le {cs : List Char} {a : Nat} (h : parseOctet cs = some a) : a ≤ 255 := by
  unfold parseOctet at h
  repeat split at h
  all_goals simp_all
  omega

lemma parseIPv4_lt {cs : List Char} {ip : Nat} (h : parseIPv4 cs = some ip) :
    ip < 4294967296 := by
  unfold parseIPv4 at h
  split at h
  · split at h
    · rename_i a b c d ha hb hc hd
      injection h with h
      have := parseOctet_le ha
      have := parseOctet_le hb
      have := parseOctet_le hc
      have := parseOctet_le hd
      omega
    · exact absurd h (by simp)
  · exact absurd h (by simp)

lemma parsePrefixLen_le {cs : List Char} {q : Nat} (h : parsePrefixLen cs = some q) :
    q ≤ 32 := by
  unfold parsePrefixLen at h
  repeat split at h
  all_goals simp_all
  omega

lemma parseCIDR_sound {s : String} {net p : Nat} (h : parseCIDR s = some (net, p)) :
    net < 4294967296 ∧ p ≤ 32 ∧ net % 2 ^ (32 - p) = 0 := by
  unfold parseCIDR at h
  split at h
  · split at h
    · rename_i ip hip
      injection h with h
      injection h with h1 h2
      subst h1
      subst h2
      exact ⟨parseIPv4_lt hip, by norm_num, by omega⟩
    · exact absurd h (by simp)
  · split at h
    · rename_i ip q hip hq
      split at h
      · rename_i hmod
        injection h with h
        injection h with h1 h2
        subst h1
        subst h2
        exact ⟨parseIPv4_lt hip, parsePrefixLen_le hq, hmod⟩
      · exact absurd h (by simp)
    · exact absurd h (by simp)
  · exact absurd h (by simp)

lemma net_block_le {net p : Nat} (h1 : net < 4294967296) (hp : p ≤ 32)
    (h2 : net % 2 ^ (32 - p) = 0) : net + 2 ^ (32 - p) ≤ 4294967296 := by
  obtain ⟨q, hq⟩ := Nat.dvd_of_mod_eq_zero h2
  have hs : 0 < 2 ^ (32 - p) := Nat.pos_pow_of_pos _ (by norm_num)
  have h32 : (4294967296 : Nat) = 2 ^ (32 - p) * 2 ^ p := by
    have hexp : 32 - p + p = 32 := by omega
    rw [← pow_add, hexp]
    norm_num
  rw [h32, hq] at h1 ⊢
  have hqlt : q < 2 ^ p := by
    by_contra hc
    push_neg at hc
    have := Nat.mul_le_mul_left (2 ^ (32 - p)) hc
    omega
  calc 2 ^ (32 - p) * q + 2 ^ (32 - p) = 2 ^ (32 - p) * (q + 1) := by ring
    _ ≤ 2 ^ (32 - p) * 2 ^ p := Nat.mul_le_mul_left _ hqlt

/-- Sequential insertion succeeds exactly as an append when the incoming
rows carry pairwise distinct ips, none already present. -/
lemma insertRows_of_nodup :
    ∀ (rows existing : List AddrRow),
      (rows.map AddrRow.ip_address).Nodup →
      (∀ r ∈ rows, ∀ e ∈ existing, e.ip_address ≠ r.ip_address) →
      insertRows existing rows = some (existing ++ rows) := by
  intro rows
  induction rows with
  | nil => intro existing _ _; simp [insertRows]
  | cons r rest ih =>
    intro existing h1 h2
    have hnd : r.ip_address ∉ rest.map AddrRow.ip_address ∧
        (rest.map AddrRow.ip_address).Nodup := by
      rw [List.map_cons, List.nodup_cons] at h1
      exact h1
    unfold insertRows
    have hany : (existing.any (fun e => e.ip_address == r.ip_address)) = false := by
      simp only [List.any_eq_false]
      intro e he
      simp [h2 r (List.mem_cons_self _ _) e he]
    rw [if_neg (by simp [hany])]
    have hdisj : ∀ r' ∈ rest, ∀ e ∈ existing ++ [r], e.ip_address ≠ r'.ip_address := by
      intro r' hr' e he
      rcases List.mem_append.mp he with he | he
      · exact h2 r' (List.mem_cons_of_mem _ hr') e he
      · rcases List.mem_singleton.mp he with rfl
        intro hcontra
        exact hnd.1 (hcontra ▸ List.mem_map_of_mem AddrRow.ip_address hr')
    rw [ih (existing ++ [r]) hnd.2 hdisj]
    simp

/-- Insertion fails whenever some incoming row's ip is already present. -/
lemma insertRows_none_of_mem :
    ∀ (rows existing : List AddrRow),
      (∃ r ∈ rows, ∃ e ∈ existing, e.ip_address = r.ip_address) →
      insertRows existing rows = none := by
  intro rows
  induction rows with
  | nil => intro existing h; simp at h
  | cons r rest ih =>
    intro existing h
    obtain ⟨r', hr', e, he, heq⟩ := h
    unfold insertRows
    rcases List.mem_cons.mp hr' with rfl | hr'
    · rw [if_pos (by simp [List.any_eq_true]; exact ⟨e, he, heq⟩)]
    · by_cases hany : (existing.any (fun x => x.ip_address == r.ip_address)) = true
      · rw [if_pos hany]
      · rw [if_neg hany]
        exact ih (existing ++ [r]) ⟨r', hr', e, List.mem_append_left _ he, heq⟩

/-- Insertion fails whenever the incoming rows repeat an ip among
themselves, whatever the existing rows are. -/
lemma insertRows_none_of_dup :
    ∀ (rows existing : List AddrRow),
      ¬ (rows.map AddrRow.ip_address).Nodup →
      insertRows existing rows = none := by
  intro rows
  induction rows with
  | nil => intro existing h; simp at h
  | cons r rest ih =>
    intro existing h
    rw [List.map_cons, List.nodup_cons] at h
    push_neg at h
    unfold insertRows
    by_cases hany : (existing.any (fun x => x.ip_address == r.ip_address)) = true
    · rw [if_pos hany]
    · rw [if_neg hany]
      by_cases hmem : r.ip_address ∈ rest.map AddrRow.ip_address
      · obtain ⟨r', hr', heq⟩ := List.mem_map.mp hmem
        exact insertRows_none_of_mem rest (existing ++ [r])
          ⟨r', hr', r, List.mem_append_right _ (List.mem_singleton.mpr rfl), heq.symm⟩
      · exact ih (existing ++ [r]) (h hmem)

lemma hostsList_le30 {net p : Nat} (hp : p ≤ 30) :
    hostsList net p = (List.range (2 ^ (32 - p) - 2)).map (fun i => net + 1 + i) := by
  unfold hostsList
  rw [if_pos hp]

lemma hostsList_31 (net : Nat) : hostsList net 31 = [net, net + 1] := by
  unfold hostsList
  norm_num

lemma hostsList_32 (net : Nat) : hostsList net 32 = [net] := by
  unfold hostsList
  norm_num

/-- For a prefix up to /30 whose block fits below 2^32, the generated
address strings are pairwise distinct. -/
lemma genAddrRows_ips_nodup {net p sid now : Nat} (hp : p ≤ 30)
    (hb : net + 2 ^ (32 - p) ≤ 4294967296) :
    ((genAddrRows net p sid now).map AddrRow.ip_address).Nodup := by
  rw [genAddrRows_eq, hostsList_le30 hp]
  have hs4 := two_pow_ge hp
  have heq : List.map AddrRow.ip_address
      (((List.range (2 ^ (32 - p) - 2)).map (fun i => net + 1 + i)).map
        (fun ip => ({ ip_address := ipString ip, subnet_id := sid
                      status := Status.free, last_updated := now } : AddrRow)) ++
       [{ ip_address := ipString net, subnet_id := sid, status := .reserved
          notes := some "网络地址", last_updated := now },
        { ip_address := ipString (broadcastOf net p), subnet_id := sid
          status := .reserved, notes := some "广播地址", last_updated := now }]) =
      (((List.range (2 ^ (32 - p) - 2)).map (fun i => net + 1 + i)) ++
        [net, broadcastOf net p]).map ipString := by
    rw [List.map_append, List.map_map, List.map_append]
    rfl
  rw [heq]
  have hall : ∀ a ∈ ((List.range (2 ^ (32 - p) - 2)).map (fun i => net + 1 + i)) ++
      [net, broadcastOf net p], a < 4294967296 := by
    intro a ha
    rcases List.mem_append.mp ha with ha | ha
    · obtain ⟨i, hi, rfl⟩ := List.mem_map.mp ha
      rw [List.mem_range] at hi
      omega
    · rcases List.mem_cons.mp ha with rfl | ha
      · omega
      · rcases List.mem_singleton.mp ha with rfl
        unfold broadcastOf
        omega
  have hnats : (((List.range (2 ^ (32 - p) - 2)).map (fun i => net + 1 + i)) ++
      [net, broadcastOf net p]).Nodup := by
    apply List.Nodup.append
    · exact List.Nodup.map (fun a b hab => by omega) (List.nodup_range _)
    · simp [broadcastOf]
      omega
    · intro a ha hb
      obtain ⟨i, hi, rfl⟩ := List.mem_map.mp ha
      rw [List.mem_range] at hi
      rcases List.mem_cons.mp hb with h | h
      · omega
      · rcases List.mem_singleton.mp h with h
        unfold broadcastOf at h
        omega
  exact List.Nodup.map_on
    (fun x hx y hy hxy => ipString_inj (hall x hx) (hall y hy) hxy) hnats

/-- The success equation of create_subnet for a strict CIDR with prefix
at most /30 whose generated addresses are all new: the subnet row and
the generated address rows are appended and the reported total is the
full block size 2^(32-p). -/
lemma create_subnet_ok {db : DB} {cidr d g dns : String} {now net p : Nat}
    (hp : parseCIDR cidr = some (net, p)) (h30 : p ≤ 30)
    (hdup : (db.subnets.any (fun s => s.subnet_cidr == cidr)) = false)
    (hnew : ∀ q ∈ db.ip_addresses, ∀ a ∈ genAddrRows net p db.next_subnet_id now,
      q.ip_address ≠ a.ip_address) :
    create_subnet db cidr d g dns now =
      (CreateResult.ok (2 ^ (32 - p)),
       { db with
         subnets := db.subnets ++
           [{ id := db.next_subnet_id, subnet_cidr := cidr, description := d
              gateway := g, dns_server := dns, created_at := now }]
         ip_addresses := db.ip_addresses ++ genAddrRows net p db.next_subnet_id now
         next_subnet_id := db.next_subnet_id + 1 }) := by
  obtain ⟨hlt, hle, hmod⟩ := parseCIDR_sound hp
  have hb := net_block_le hlt hle hmod
  have hnd : ((genAddrRows net p db.next_subnet_id now).map AddrRow.ip_address).Nodup :=
    genAddrRows_ips_nodup h30 hb
  have hins := insertRows_of_nodup (genAddrRows net p db.next_subnet_id now)
    db.ip_addresses hnd (fun r hr e he => hnew e he r hr)
  simp only [create_subnet, hp, hdup, Bool.false_eq_true, if_false, hins]
  rw [genTotal_eq, hostsList_length h30]
  have h2 : 2 ^ (32 - p) - 2 + 2 = 2 ^ (32 - p) := by
    have := two_pow_ge h30
    omega
  rw [h2]

/-- For prefixes /31 and /32 the generated rows repeat the network
address string, so — unless the duplicate-CIDR check fired first — the
insertion transaction always aborts with an IntegrityError, leaving the
store unchanged. -/
lemma create_subnet_fail31 {db : DB} {cidr d g dns : String} {now net p : Nat}
    (hp : parseCIDR cidr = some (net, p)) (h31 : 31 ≤ p)
    (hdup : (db.subnets.any (fun s => s.subnet_cidr == cidr)) = false) :
    create_subnet db cidr d g dns now = (CreateResult.integrityError, db) := by
  obtain ⟨hlt, hle, hmod⟩ := parseCIDR_sound hp
  have hdupins : ¬ ((genAddrRows net p db.next_subnet_id now).map AddrRow.ip_address).Nodup := by
    rw [genAddrRows_eq]
    have hp2 : p = 31 ∨ p = 32 := by omega
    rcases hp2 with rfl | rfl
    · rw [hostsList_31]
      intro hnd
      simp only [List.map_append, List.map_cons, List.map_nil, List.cons_append,
        List.nil_append, List.nodup_cons] at hnd
      exact hnd.1 (by simp)
    · rw [hostsList_32]
      intro hnd
      simp only [List.map_append, List.map_cons, List.map_nil, List.cons_append,
        List.nil_append, List.nodup_cons] at hnd
      exact hnd.1 (by simp)
  have hins := insertRows_none_of_dup (genAddrRows net p db.next_subnet_id now)
    db.ip_addresses hdupins
  simp only [create_subnet, hp, hdup, Bool.false_eq_true, if_false, hins]

/-- The generated rows of a prefix at most /30 hold 2^(32-p) - 2 free
rows, exactly 2 reserved rows, no used row, and 2^(32-p) rows in all. -/
lemma genAddrRows_counts {net p sid now : Nat} (hp : p ≤ 30) :
    ((genAddrRows net p sid now).filter (fun r => r.status == Status.free)).length =
      2 ^ (32 - p) - 2 ∧
    ((genAddrRows net p sid now).filter (fun r => r.status == Status.reserved)).length = 2 ∧
    ((genAddrRows net p sid now).filter (fun r => r.status == Status.used)).length = 0 ∧
    (genAddrRows net p sid now).length = 2 ^ (32 - p) := by
  rw [genAddrRows_eq]
  have hlen := @hostsList_length net p hp
  refine ⟨?_, ?_, ?_, ?_⟩
  · simp [List.filter_append, List.filter_map, Function.comp_def, hlen]
  · simp [List.filter_append, List.filter_map, Function.comp_def]
  · simp [List.filter_append, List.filter_map, Function.comp_def]
  · simp only [List.length_append, List.length_map, List.length_cons, List.length_nil, hlen]
    have := two_pow_ge hp
    omega

/-! ### Claims C4, C9, C10: subnet creation -/

/-- Claim C4 counterexample: for the valid CIDR 10.0.0.0/31 (prefix 31)
the claim demands that creation succeed with only the network address
reserved; the code instead always attempts the broadcast insertion (the
guard is truthy), collides with the /31 host rows, and the whole call
fails with an IntegrityError, inserting nothing. -/
theorem claim_C4_counterexample :
    create_subnet DB.empty "10.0.0.0/31" "" "" "" 0 =
      (CreateResult.integrityError, DB.empty) ∧
    (create_subnet DB.empty "10.0.0.0/31" "" "" "" 0).2.ip_addresses = [] := by
  decide

/-- Claim C4 amended: for a valid CIDR with prefix at most /30 whose
addresses are new to the store, creation inserts every usable host as
free plus the network and broadcast addresses as reserved (the
broadcast-absent branch is dead code) and reports total
= usable hosts + 2 = 2^(32-p); for prefix /31 or /32 creation never
succeeds: the broadcast/network insertions collide with the host rows
and the call fails with an IntegrityError leaving the store unchanged;
in particular 192.168.1.0/24 yields total = 256 with 254 free and 2
reserved. -/
theorem claim_C4 :
    (∀ db cidr d g dns now net p,
      parseCIDR cidr = some (net, p) → p ≤ 30 →
      (db.subnets.any (fun s => s.subnet_cidr == cidr)) = false →
      (∀ q ∈ db.ip_addresses, ∀ a ∈ genAddrRows net p db.next_subnet_id now,
        q.ip_address ≠ a.ip_address) →
      create_subnet db cidr d g dns now =
        (CreateResult.ok (2 ^ (32 - p)),
         { db with
           subnets := db.subnets ++
             [{ id := db.next_subnet_id, subnet_cidr := cidr, description := d
                gateway := g, dns_server := dns, created_at := now }]
           ip_addresses := db.ip_addresses ++ genAddrRows net p db.next_subnet_id now
           next_subnet_id := db.next_subnet_id + 1 }) ∧
      ((genAddrRows net p db.next_subnet_id now).filter
        (fun r => r.status == Status.free)).length = 2 ^ (32 - p) - 2 ∧
      ((genAddrRows net p db.next_subnet_id now).filter
        (fun r => r.status == Status.reserved)).length = 2 ∧
      (genAddrRows net p db.next_subnet_id now).length = 2 ^ (32 - p)) ∧
    (∀ db cidr d g dns now net p,
      parseCIDR cidr = some (net, p) → 31 ≤ p →
      (db.subnets.any (fun s => s.subnet_cidr == cidr)) = false →
      create_subnet db cidr d g dns now = (CreateResult.integrityError, db)) ∧
    ((create_subnet DB.empty "192.168.1.0/24" "" "" "" 0).1 = CreateResult.ok 256 ∧
     (get_statistics (create_subnet DB.empty "192.168.1.0/24" "" "" "" 0).2).total = 256 ∧
     (get_statistics (create_subnet DB.empty "192.168.1.0/24" "" "" "" 0).2).free = 254 ∧
     (get_statistics (create_subnet DB.empty "192.168.1.0/24" "" "" "" 0).2).reserved = 2) := by
  refine ⟨?_, ?_, ?_⟩
  · intro db cidr d g dns now net p hp h30 hdup hnew
    obtain ⟨hc1, hc2, _, hc4⟩ := @genAddrRows_counts net p db.next_subnet_id now h30
    exact ⟨create_subnet_ok hp h30 hdup hnew, hc1, hc2, hc4⟩
  · intro db cidr d g dns now net p hp h31 hdup
    exact create_subnet_fail31 hp h31 hdup
  · have hp24 : parseCIDR "192.168.1.0/24" = some (3232235776, 24) := by decide
    have hok := @create_subnet_ok DB.empty "192.168.1.0/24" "" "" "" 0 3232235776 24
      hp24 (by norm_num) rfl (by simp [DB.empty])
    obtain ⟨hc1, hc2, _, hc4⟩ := @genAddrRows_counts 3232235776 24 1 0 (by norm_num)
    rw [hok]
    refine ⟨by rfl, ?_, ?_, ?_⟩
    · show (List.length _) = 256
      simp only [DB.empty, List.nil_append]
      rw [hc4]
      norm_num
    · show (List.length (List.filter _ _)) = 254
      simp only [DB.empty, List.nil_append]
      rw [hc1]
      norm_num
    · show (List.length (List.filter _ _)) = 2
      simp only [DB.empty, List.nil_append]
      rw [hc2]

/-- Claim C4 witness: the two general cases of claim_C4 at /30 and /32
on the empty store. -/
theorem claim_C4_witness :
    create_subnet DB.empty "10.0.0.0/30" "" "" "" 0 =
      (CreateResult.ok 4,
       { DB.empty with
         subnets := [{ id := 1, subnet_cidr := "10.0.0.0/30", description := ""
                       gateway := "", dns_server := "", created_at := 0 }]
         ip_addresses := genAddrRows 167772160 30 1 0
         next_subnet_id := 2 }) ∧
    create_subnet DB.empty "10.0.0.0/32" "" "" "" 0 =
      (CreateResult.integrityError, DB.empty) := by
  constructor
  · exact (claim_C4.1 DB.empty "10.0.0.0/30" "" "" "" 0 167772160 30
      (by decide) (by norm_num) rfl (by simp [DB.empty])).1
  · exact claim_C4.2.1 DB.empty "10.0.0.0/32" "" "" "" 0 167772160 32
      (by decide) (by norm_num) rfl

lemma create_subnet_ok_inv {db : DB} {cidr d g dns : String} {now t : Nat} {db1 : DB}
    (h : create_subnet db cidr d g dns now = (CreateResult.ok t, db1)) :
    ∃ net p, parseCIDR cidr = some (net, p) ∧
      db1.subnets = db.subnets ++
        [{ id := db.next_subnet_id, subnet_cidr := cidr, description := d
           gateway := g, dns_server := dns, created_at := now }] := by
  unfold create_subnet at h
  split at h
  · exact absurd h (by simp)
  · rename_i net p hp
    split at h
    · exact absurd h (by simp)
    · cases hins : insertRows db.ip_addresses (genAddrRows net p db.next_subnet_id now) with
      | none => simp [hins] at h
      | some rows =>
        simp only [hins, Prod.mk.injEq] at h
        obtain ⟨h1, h2⟩ := h
        subst h2
        exact ⟨net, p, hp, by simp⟩

/-- Claim C9: a second create_subnet call with the exact CIDR string of
an earlier successful call fails with the duplicate result and leaves
the store (hence the address count) unchanged; conversely, when no
stored subnet carries exactly this CIDR text, the result is never the
duplicate error — in particular a range-overlapping but textually
different CIDR is not rejected by the duplicate check. -/
theorem claim_C9 :
    (∀ db cidr d g dns now d2 g2 dns2 now2 t db1,
      create_subnet db cidr d g dns now = (CreateResult.ok t, db1) →
      create_subnet db1 cidr d2 g2 dns2 now2 = (CreateResult.duplicate, db1)) ∧
    (∀ db cidr d g dns now net p,
      parseCIDR cidr = some (net, p) →
      (∀ s ∈ db.subnets, s.subnet_cidr ≠ cidr) →
      (create_subnet db cidr d g dns now).1 ≠ CreateResult.duplicate) := by
  constructor
  · intro db cidr d g dns now d2 g2 dns2 now2 t db1 h
    obtain ⟨net, p, hp, hsub⟩ := create_subnet_ok_inv h
    have hany : (db1.subnets.any (fun s => s.subnet_cidr == cidr)) = true := by
      rw [hsub]
      simp
    simp only [create_subnet, hp, hany, if_true]
  · intro db cidr d g dns now net p hp hnone
    have hany : (db.subnets.any (fun s => s.subnet_cidr == cidr)) = false := by
      simp only [List.any_eq_false]
      intro s hs
      simp [hnone s hs]
    simp only [create_subnet, hp, hany, Bool.false_eq_true, if_false]
    split <;> simp

/-- Claim C9 witness: creating 10.0.0.0/30 twice on the empty store —
the second call returns duplicate with the store unchanged — and then
the overlapping (not textually equal) 10.0.0.0/29, whose result is not
the duplicate error. -/
theorem claim_C9_witness :
    create_subnet (create_subnet DB.empty "10.0.0.0/30" "d" "g" "n" 0).2
        "10.0.0.0/30" "x" "y" "z" 1 =
      (CreateResult.duplicate, (create_subnet DB.empty "10.0.0.0/30" "d" "g" "n" 0).2) ∧
    (create_subnet (create_subnet DB.empty "10.0.0.0/30" "d" "g" "n" 0).2
        "10.0.0.0/29" "" "" "" 1).1 ≠ CreateResult.duplicate := by
  constructor
  · exact claim_C9.1 DB.empty "10.0.0.0/30" "d" "g" "n" 0 "x" "y" "z" 1 4
      (create_subnet DB.empty "10.0.0.0/30" "d" "g" "n" 0).2 (by decide)
  · exact claim_C9.2 (create_subnet DB.empty "10.0.0.0/30" "d" "g" "n" 0).2
      "10.0.0.0/29" "" "" "" 1 167772160 29 (by decide) (by decide)

/-- Claim C10: when address-row generation hits an ip-uniqueness
violation (insertRows aborts), create_subnet returns the integrity
failure with the store exactly as before — neither the subnet row nor
any partial address rows become visible, because the transaction commits
only on the success path; and in general an integrity failure implies
the returned store is unchanged. -/
theorem claim_C10 :
    (∀ db cidr d g dns now net p,
      parseCIDR cidr = some (net, p) →
      (db.subnets.any (fun s => s.subnet_cidr == cidr)) = false →
      insertRows db.ip_addresses (genAddrRows net p db.next_subnet_id now) = none →
      create_subnet db cidr d g dns now = (CreateResult.integrityError, db)) ∧
    (∀ db cidr d g dns now,
      (create_subnet db cidr d g dns now).1 = CreateResult.integrityError →
      (create_subnet db cidr d g dns now).2 = db) := by
  constructor
  · intro db cidr d g dns now net p hp hdup hins
    simp only [create_subnet, hp, hdup, Bool.false_eq_true, if_false, hins]
  · intro db cidr d g dns now h
    cases hp : parseCIDR cidr with
    | none => simp [create_subnet, hp]
    | some np =>
      obtain ⟨net, p⟩ := np
      by_cases hd : (db.subnets.any (fun s => s.subnet_cidr == cidr)) = true
      · simp [create_subnet, hp, hd]
      · have hd2 : (db.subnets.any (fun s => s.subnet_cidr == cidr)) = false :=
          Bool.eq_false_iff.mpr hd
        cases hins : insertRows db.ip_addresses (genAddrRows net p db.next_subnet_id now) with
        | none => simp [create_subnet, hp, hd2, hins]
        | some rows =>
          exfalso
          simp [create_subnet, hp, hd2, hins] at h

/-- The store after creating 10.0.0.0/29 on the empty store. -/
def db29 : DB := (create_subnet DB.empty "10.0.0.0/29" "" "" "" 0).2

/-- Claim C10 witness: creating the overlapping 10.0.0.0/30 after
10.0.0.0/29 passes the duplicate check but aborts on the ip-uniqueness
violation, leaving the store unchanged. -/
theorem claim_C10_witness :
    create_subnet db29 "10.0.0.0/30" "" "" "" 1 = (CreateResult.integrityError, db29) ∧
    (create_subnet db29 "10.0.0.0/30" "" "" "" 1).2 = db29 := by
  have h1 := claim_C10.1 db29 "10.0.0.0/30" "" "" "" 1 167772160 30
    (by decide) (by decide) (by decide)
  have h2 := claim_C10.2 db29 "10.0.0.0/30" "" "" "" 1 (by rw [h1])
  exact ⟨h1, h2⟩

end IPAM
